import Mathlib

/-!
Verification of the COVID-19 data pipeline core: the Reshaper
(`pivot_to_long_format`), Normalizer (`clean_data`), Merger
(`merge_datasets`) from `src/transform.py`, and the Quality Gate
(`DataQualityValidator` / `validate_all`) from `src/data_quality.py`.

Cells of a pandas DataFrame are modelled by `Val` (a string, an integer,
or the missing value NaN/NaT, written `Val.na`).  Dates are modelled as
integers (days since the epoch); the external parser `pd.to_datetime` is
a parameter `parse : String → Option Int`.  Fallible stages return
`Except`.  Mutation of the validator's shared `self.errors` /
`self.warnings` lists is modelled by threading the lists through the
check functions in the order `validate_all` invokes them.
-/

set_option maxHeartbeats 1000000
set_option linter.unusedSectionVars false

namespace Covid

/-- A pandas cell: a string, an integer count / datetime, or missing
(NaN / NaT / None). -/
inductive Val where
  | str : String → Val
  | int : Int → Val
  | na : Val
deriving DecidableEq

/-- A wide-format table as read by `pd.read_csv`: a header of column
labels and data rows of cells. -/
structure WideTable where
  cols : List String
  rows : List (List Val)

/-- One melted cell before date parsing: the date-column label, the
original row (whose first 4 entries are the identifier columns
Province/State, Country/Region, Lat, Long), and the cell value. -/
structure MeltEntry where
  label : String
  ids : List Val
  value : Val
deriving DecidableEq

/-- One row of the long format produced by `pivot_to_long_format`:
the 4 identifier columns, the parsed date and the metric value. -/
structure MeltRow where
  provinceState : Val
  countryRegion : Val
  lat : Val
  long : Val
  date : Val
  value : Val
deriving DecidableEq

/-- `df.melt(id_vars=df.columns[:4], ...)` is column-major: for each
date column (in header order), one entry per data row.  `j` is the
index of the current label inside the date columns, so the cell sits at
position `4 + j` of the row. -/
def meltCols (rows : List (List Val)) : Nat → List String → List MeltEntry
  | _, [] => []
  | j, c :: cs =>
    (rows.map fun row => ⟨c, row, row.getD (4 + j) Val.na⟩) ++ meltCols rows (j + 1) cs

/-- The melt step of `pivot_to_long_format`: every column after the
first 4 identifier columns is treated as a date column. -/
def melt (df : WideTable) : List MeltEntry := meltCols df.rows 0 (df.cols.drop 4)

/-- Build the long row from a melted entry once its date label parsed. -/
def mkMeltRow (e : MeltEntry) (d : Int) : MeltRow :=
  ⟨e.ids.getD 0 Val.na, e.ids.getD 1 Val.na, e.ids.getD 2 Val.na, e.ids.getD 3 Val.na,
   Val.int d, e.value⟩

/-- `pd.to_datetime(df_long['date'])`: parses every melted date label;
any label that fails to parse raises, aborting the whole reshape with
no partial output. -/
def parseAll (parse : String → Option Int) : List MeltEntry → Except String (List MeltRow)
  | [] => Except.ok []
  | e :: es =>
    match parse e.label with
    | none => Except.error ("Unable to parse date: " ++ e.label)
    | some d =>
      match parseAll parse es with
      | Except.ok out => Except.ok (mkMeltRow e d :: out)
      | Except.error m => Except.error m

/-- `CovidDataTransformer.pivot_to_long_format`: melt the wide table,
then convert the date column, failing the whole run on a bad label. -/
def pivot_to_long_format (parse : String → Option Int) (df : WideTable) :
    Except String (List MeltRow) :=
  parseAll parse (melt df)

/-- A cleaned long row: columns renamed to `country_region` /
`province_state`, the `latitude` / `longitude` columns dropped. -/
structure LongRow where
  country_region : Val
  province_state : Val
  date : Val
  value : Val
deriving DecidableEq

/-- The per-row action of `clean_data`: rename `Country/Region` →
`country_region`, `Province/State` → `province_state`, fill a missing
province with the sentinel `"All"`, drop Lat/Long. -/
def cleanRow (m : MeltRow) : LongRow :=
  ⟨m.countryRegion,
   if m.provinceState = Val.na then Val.str "All" else m.provinceState,
   m.date, m.value⟩

/-- `CovidDataTransformer.clean_data`. -/
def clean_data (df : List MeltRow) : List LongRow := df.map cleanRow

/-- The merge key `['country_region', 'province_state', 'date']`. -/
abbrev MKey := Val × Val × Val

def LongRow.key (r : LongRow) : MKey := (r.country_region, r.province_state, r.date)

/-- Result row of the first outer merge (confirmed ⋈ deaths). -/
structure CDRow where
  country_region : Val
  province_state : Val
  date : Val
  confirmed : Val
  deaths : Val
deriving DecidableEq

def CDRow.key (r : CDRow) : MKey := (r.country_region, r.province_state, r.date)

/-- Result row of the second outer merge (⋈ recovered), before
`fillna(0)` and before the `active` column is added. -/
structure FullRow where
  country_region : Val
  province_state : Val
  date : Val
  confirmed : Val
  deaths : Val
  recovered : Val
deriving DecidableEq

def FullRow.key (r : FullRow) : MKey := (r.country_region, r.province_state, r.date)

/-- `pd.merge(..., how='outer')` on a key: each left row pairs with
every right row of equal key (pandas treats two NaN keys as equal,
which `Val.na = Val.na` mirrors); a left row with no match keeps its
values with the right side's column absent (NaN); unmatched right rows
are appended with the left side's column absent. -/
def outerJoin {α β γ K : Type} [DecidableEq K] (ls : List α) (rs : List β)
    (kl : α → K) (kr : β → K) (bo : α → β → γ) (lo : α → γ) (ro : β → γ) : List γ :=
  (ls.flatMap fun l =>
    if (rs.filter fun r => decide (kr r = kl l)).isEmpty then [lo l]
    else (rs.filter fun r => decide (kr r = kl l)).map (bo l)) ++
  ((rs.filter fun r => !(ls.any fun l => decide (kl l = kr r))).map ro)

/-- First merge of `merge_datasets`: confirmed ⋈ deaths on the merge
key, outer. -/
def join1 (cs ds : List LongRow) : List CDRow :=
  outerJoin cs ds LongRow.key LongRow.key
    (fun c d => ⟨c.country_region, c.province_state, c.date, c.value, d.value⟩)
    (fun c => ⟨c.country_region, c.province_state, c.date, c.value, Val.na⟩)
    (fun d => ⟨d.country_region, d.province_state, d.date, Val.na, d.value⟩)

/-- Second merge of `merge_datasets`: (confirmed ⋈ deaths) ⋈ recovered
on the merge key, outer. -/
def join2 (ms : List CDRow) (rs : List LongRow) : List FullRow :=
  outerJoin ms rs CDRow.key LongRow.key
    (fun m r => ⟨m.country_region, m.province_state, m.date, m.confirmed, m.deaths, r.value⟩)
    (fun m => ⟨m.country_region, m.province_state, m.date, m.confirmed, m.deaths, Val.na⟩)
    (fun r => ⟨r.country_region, r.province_state, r.date, Val.na, Val.na, r.value⟩)

/-- `fillna(0)` on one cell. -/
def fillVal : Val → Val
  | Val.na => Val.int 0
  | v => v

/-- `df.fillna(0)` applies to every column of the merged frame, the key
columns included, not only the three metric columns. -/
def fillRow (r : FullRow) : FullRow :=
  ⟨fillVal r.country_region, fillVal r.province_state, fillVal r.date,
   fillVal r.confirmed, fillVal r.deaths, fillVal r.recovered⟩

/-- pandas column subtraction on cells: exact integer arithmetic on
numbers, missing on anything else (NaN propagates). -/
def vsub : Val → Val → Val
  | Val.int a, Val.int b => Val.int (a - b)
  | _, _ => Val.na

/-- One row of the merged dataset handed to the Quality Gate. -/
structure URow where
  country_region : Val
  province_state : Val
  date : Val
  confirmed : Val
  deaths : Val
  recovered : Val
  active : Val
deriving DecidableEq

def URow.key (r : URow) : MKey := (r.country_region, r.province_state, r.date)

/-- `df['active'] = df['confirmed'] - df['deaths'] - df['recovered']`. -/
def addActive (r : FullRow) : URow :=
  ⟨r.country_region, r.province_state, r.date, r.confirmed, r.deaths, r.recovered,
   vsub (vsub r.confirmed r.deaths) r.recovered⟩

/-- `CovidDataTransformer.merge_datasets`: two outer merges, then
`fillna(0)` on the whole frame, then the derived `active` column. -/
def merge_datasets (cs ds rs : List LongRow) : List URow :=
  ((join2 (join1 cs ds) rs).map fillRow).map addActive

/-- pandas elementwise `<` against a number: false on NaN and on
non-numeric cells. -/
def pdLt : Val → Val → Bool
  | Val.int a, Val.int b => decide (a < b)
  | _, _ => false

/-- pandas elementwise `!=`: NaN compares unequal to everything
(itself included); cells of different kinds are unequal. -/
def pdNe : Val → Val → Bool
  | Val.int a, Val.int b => decide (a ≠ b)
  | Val.str a, Val.str b => decide (a ≠ b)
  | _, _ => true

/-- The `critical_columns` of `check_null_values`, in source order. -/
def criticalColumns : List (String × (URow → Val)) :=
  [("country_region", URow.country_region), ("date", URow.date),
   ("confirmed", URow.confirmed), ("deaths", URow.deaths)]

/-- `self.df[col].isnull().sum()`. -/
def countNull (df : List URow) (f : URow → Val) : Nat :=
  (df.filter fun r => decide (f r = Val.na)).length

/-- `DataQualityValidator.check_null_values`, threading `self.errors`;
its boolean is `len(self.errors) == 0` on the list after appending. -/
def check_null_values (df : List URow) (errors : List String) : List String × Bool :=
  let errors2 := criticalColumns.foldl
    (fun es c =>
      let n := countNull df c.2
      if 0 < n then es ++ [s!"Found {n} NULL values in {c.1}"] else es) errors
  (errors2, errors2.length == 0)

/-- The `numeric_columns` of `check_negative_values`, in source order. -/
def numericColumns : List (String × (URow → Val)) :=
  [("confirmed", URow.confirmed), ("deaths", URow.deaths), ("recovered", URow.recovered)]

/-- `(self.df[col] < 0).sum()`. -/
def countNegative (df : List URow) (f : URow → Val) : Nat :=
  (df.filter fun r => pdLt (f r) (Val.int 0)).length

/-- `DataQualityValidator.check_negative_values`, threading
`self.warnings`; it always returns `True`. -/
def check_negative_values (df : List URow) (warnings : List String) : List String × Bool :=
  (numericColumns.foldl
    (fun ws c =>
      let n := countNegative df c.2
      if 0 < n then ws ++ [s!"Found {n} negative values in {c.1}"] else ws) warnings,
   true)

/-- `pd.Timestamp('2020-01-01')` in days since 1970-01-01. -/
def min_date : Int := 18262

/-- A row the date-range check flags: date before 2020-01-01 or after
the wall-clock `now` (`pd.Timestamp.now()`). -/
def isInvalidDate (now : Int) (r : URow) : Bool :=
  pdLt r.date (Val.int min_date) || pdLt (Val.int now) r.date

/-- `DataQualityValidator.check_date_range`, threading `self.errors`. -/
def check_date_range (now : Int) (df : List URow) (errors : List String) :
    List String × Bool :=
  let invalid := (df.filter (isInvalidDate now)).length
  (if 0 < invalid then errors ++ [s!"Found {invalid} records with invalid dates"] else errors,
   invalid == 0)

/-- `expected_active = self.df['confirmed'] - self.df['deaths'] - self.df['recovered']`. -/
def expected_active (r : URow) : Val := vsub (vsub r.confirmed r.deaths) r.recovered

/-- `DataQualityValidator.check_logical_consistency`, threading
`self.errors`. -/
def check_logical_consistency (df : List URow) (errors : List String) :
    List String × Bool :=
  let inconsistent := (df.filter fun r => pdNe r.active (expected_active r)).length
  (if 0 < inconsistent then
     errors ++ [s!"Found {inconsistent} records with inconsistent active calculation"]
   else errors,
   inconsistent == 0)

/-- `DataQualityValidator.validate_all`: runs the four checks in the
fixed source order on a validator whose `errors` and `warnings` start
empty, ANDs their booleans, and returns
`(all_passed, self.errors, self.warnings)`. -/
def validate_all (now : Int) (df : List URow) : Bool × List String × List String :=
  let r1 := check_null_values df []
  let r2 := check_negative_values df []
  let r3 := check_date_range now df r1.1
  let r4 := check_logical_consistency df r3.1
  (r1.2 && r2.2 && r3.2 && r4.2, r4.1, r2.1)

/-- A cell a numeric source column can hold: a number or NaN. -/
def numOrNa : Val → Bool
  | Val.int _ => true
  | Val.na => true
  | _ => false

/-- A date parser that accepts every label (as day 0), for concrete runs. -/
def parseZero : String → Option Int := fun _ => some 0

/-- A date parser that rejects every label, for concrete runs. -/
def parseNone : String → Option Int := fun _ => none

/-- A concrete 2-row, 2-date-column wide table. -/
def sampleWide : WideTable :=
  ⟨["Province/State", "Country/Region", "Lat", "Long", "1/22/20", "1/23/20"],
   [[Val.na, Val.str "US", Val.int 40, Val.int (-74), Val.int 1, Val.int 2],
    [Val.str "BC", Val.str "Canada", Val.int 49, Val.int (-123), Val.int 3, Val.int 4]]⟩

/-- The long-format result of reshaping `sampleWide` with `parseZero`
(column-major, as pandas `melt` orders its output). -/
def sampleLong : List MeltRow :=
  [⟨Val.na, Val.str "US", Val.int 40, Val.int (-74), Val.int 0, Val.int 1⟩,
   ⟨Val.str "BC", Val.str "Canada", Val.int 49, Val.int (-123), Val.int 0, Val.int 3⟩,
   ⟨Val.na, Val.str "US", Val.int 40, Val.int (-74), Val.int 0, Val.int 2⟩,
   ⟨Val.str "BC", Val.str "Canada", Val.int 49, Val.int (-123), Val.int 0, Val.int 4⟩]

/-- A wide table with an unparseable date-column label and no data rows. -/
def wideBadLabel : WideTable :=
  ⟨["Province/State", "Country/Region", "Lat", "Long", "notadate"], []⟩

/-- A wide table with an unparseable date-column label and one data row. -/
def wideBadRow : WideTable :=
  ⟨["Province/State", "Country/Region", "Lat", "Long", "notadate"],
   [[Val.na, Val.str "US", Val.na, Val.na, Val.int 5]]⟩

/-- A one-record reshaped table whose sub-region is missing. -/
def mrowsNa : List MeltRow := [⟨Val.na, Val.str "US", Val.na, Val.na, Val.int 18300, Val.int 5⟩]

/-- Confirmed input whose single key has a null region. -/
def csKeyNa : List LongRow := [⟨Val.na, Val.str "All", Val.int 18300, Val.int 1⟩]

/-- Deaths input whose single key carries the literal number 0 as its
region, colliding with the zero-fill of a null region. -/
def dsKeyZero : List LongRow := [⟨Val.int 0, Val.str "All", Val.int 18300, Val.int 2⟩]

/-- A confirmed input with one well-formed record. -/
def csUniq : List LongRow := [⟨Val.str "US", Val.str "All", Val.int 18300, Val.int 5⟩]

/-- A confirmed input with one numeric record, for the active-derivation run. -/
def csActive : List LongRow := [⟨Val.str "US", Val.str "All", Val.int 18300, Val.int 7⟩]

/-- The merged row produced from `csActive` alone. -/
def uActive : URow :=
  ⟨Val.str "US", Val.str "All", Val.int 18300, Val.int 7, Val.int 0, Val.int 0, Val.int 7⟩

/-- A confirmed input with one record, for the zero-fill run. -/
def csFill : List LongRow := [⟨Val.str "FR", Val.str "All", Val.int 18301, Val.int 4⟩]

/-- The joined (pre-fill) row produced from `csFill` alone. -/
def jFill : FullRow :=
  ⟨Val.str "FR", Val.str "All", Val.int 18301, Val.int 4, Val.na, Val.na⟩

/-- A confirmed input with one numeric record, for the consistency run. -/
def csCons : List LongRow := [⟨Val.str "IT", Val.str "All", Val.int 18302, Val.int 9⟩]

/-- A confirmed input whose single record has a null region, for the
fill-all-columns run. -/
def csNaRegion : List LongRow := [⟨Val.na, Val.str "All", Val.int 18303, Val.int 2⟩]

/-- A consistent merged row dated 10 days after 2020-01-01. -/
def c8row : URow :=
  ⟨Val.str "US", Val.str "All", Val.int (min_date + 10), Val.int 1, Val.int 0, Val.int 0,
   Val.int 1⟩

section JoinLemmas

variable {α β γ K : Type} [DecidableEq K]
variable {ls : List α} {rs : List β}
variable {kl : α → K} {kr : β → K} {bo : α → β → γ} {lo : α → γ} {ro : β → γ}

theorem mem_outerJoin_cases {x : γ} (hx : x ∈ outerJoin ls rs kl kr bo lo ro) :
    (∃ l ∈ ls, ∃ r ∈ rs, kr r = kl l ∧ x = bo l r) ∨
    (∃ l ∈ ls, (∀ r ∈ rs, kr r ≠ kl l) ∧ x = lo l) ∨
    (∃ r ∈ rs, (∀ l ∈ ls, kl l ≠ kr r) ∧ x = ro r) := by
  unfold outerJoin at hx
  rcases List.mem_append.mp hx with h | h
  · rcases List.mem_flatMap.mp h with ⟨l, hl, hxl⟩
    by_cases he : (rs.filter fun r => decide (kr r = kl l)).isEmpty
    · rw [if_pos he] at hxl
      have hnil : (rs.filter fun r => decide (kr r = kl l)) = [] :=
        List.isEmpty_iff.mp he
      refine Or.inr (Or.inl ⟨l, hl, ?_, List.mem_singleton.mp hxl⟩)
      intro r hr hkey
      have : r ∈ (rs.filter fun r => decide (kr r = kl l)) :=
        List.mem_filter.mpr ⟨hr, by simpa using hkey⟩
      simp [hnil] at this
    · rw [if_neg he] at hxl
      rcases List.mem_map.mp hxl with ⟨r, hrf, hxr⟩
      have hr := List.mem_filter.mp hrf
      exact Or.inl ⟨l, hl, r, hr.1, by simpa using hr.2, hxr.symm⟩
  · rcases List.mem_map.mp h with ⟨r, hrf, hxr⟩
    have hr := List.mem_filter.mp hrf
    have hall : ∀ l ∈ ls, kl l ≠ kr r := by
      intro l hl
      have h2 := hr.2
      rw [Bool.not_eq_true'] at h2
      have := List.any_eq_false.mp h2 l hl
      simpa using this
    exact Or.inr (Or.inr ⟨r, hr.1, hall, hxr.symm⟩)

theorem outerJoin_left_total (ls : List α) (rs : List β) (kl : α → K) (kr : β → K)
    (bo : α → β → γ) (lo : α → γ) (ro : β → γ) {l : α} (hl : l ∈ ls) :
    ∃ x ∈ outerJoin ls rs kl kr bo lo ro, (∃ r ∈ rs, x = bo l r) ∨ x = lo l := by
  unfold outerJoin
  by_cases he : (rs.filter fun r => decide (kr r = kl l)).isEmpty
  · refine ⟨lo l, ?_, Or.inr rfl⟩
    exact List.mem_append.mpr (Or.inl (List.mem_flatMap.mpr ⟨l, hl, by rw [if_pos he]; simp⟩))
  · have hne : (rs.filter fun r => decide (kr r = kl l)) ≠ [] := by
      intro hc; exact he (by simp [hc])
    rcases List.exists_mem_of_ne_nil _ hne with ⟨r, hrf⟩
    refine ⟨bo l r, ?_, Or.inl ⟨r, (List.mem_filter.mp hrf).1, rfl⟩⟩
    refine List.mem_append.mpr (Or.inl (List.mem_flatMap.mpr ⟨l, hl, ?_⟩))
    rw [if_neg he]
    exact List.mem_map.mpr ⟨r, hrf, rfl⟩

theorem nodup_all_eq_length_le_one {l : List K} {k : K}
    (hn : l.Nodup) (hk : ∀ x ∈ l, x = k) : l.length ≤ 1 := by
  match l with
  | [] => simp
  | [a] => simp
  | a :: b :: t =>
    exfalso
    have ha := hk a (by simp)
    have hb := hk b (by simp)
    have : a ∉ b :: t := (List.nodup_cons.mp hn).1
    exact this (by rw [ha, ← hb]; simp)

theorem filter_key_length_le_one (rs : List β) (kr : β → K) (hrs : (rs.map kr).Nodup) (k : K) :
    (rs.filter fun r => decide (kr r = k)).length ≤ 1 := by
  have hsub : ((rs.filter fun r => decide (kr r = k)).map kr).Sublist (rs.map kr) :=
    (List.filter_sublist rs).map kr
  have h1 : ((rs.filter fun r => decide (kr r = k)).map kr).Nodup := hsub.nodup hrs
  have h2 : ∀ x ∈ (rs.filter fun r => decide (kr r = k)).map kr, x = k := by
    intro x hx
    rcases List.mem_map.mp hx with ⟨r, hrf, hxr⟩
    have := (List.mem_filter.mp hrf).2
    rw [← hxr]
    simpa using this
  have := nodup_all_eq_length_le_one h1 h2
  simpa [List.length_map] using this

theorem outerJoin_keys (kg : γ → K) (hrs : (rs.map kr).Nodup)
    (hbo : ∀ l r, kr r = kl l → kg (bo l r) = kl l)
    (hlo : ∀ l, kg (lo l) = kl l)
    (hro : ∀ r, kg (ro r) = kr r) :
    (outerJoin ls rs kl kr bo lo ro).map kg =
      ls.map kl ++ (rs.filter fun r => !(ls.any fun l => decide (kl l = kr r))).map kr := by
  unfold outerJoin
  rw [List.map_append]
  congr 1
  · induction ls with
    | nil => simp
    | cons a t ih =>
      rw [List.flatMap_cons, List.map_append, List.map_cons, ih]
      by_cases he : (rs.filter fun r => decide (kr r = kl a)).isEmpty
      · rw [if_pos he]
        simp [hlo]
      · rw [if_neg he]
        have hne : (rs.filter fun r => decide (kr r = kl a)) ≠ [] := by
          intro hc
          exact absurd (by simp [hc]) he
        have hle := filter_key_length_le_one rs kr hrs (kl a)
        have h0 : (rs.filter fun r => decide (kr r = kl a)).length ≠ 0 := by
          simpa [List.length_eq_zero] using hne
        have hlen : (rs.filter fun r => decide (kr r = kl a)).length = 1 := by omega
        rcases List.length_eq_one.mp hlen with ⟨r, hrone⟩
        have hrmem : r ∈ rs.filter fun r => decide (kr r = kl a) := by
          rw [hrone]; simp
        have hkey : kr r = kl a := by simpa using (List.mem_filter.mp hrmem).2
        rw [hrone]
        simp [hbo a r hkey]
  · rw [List.map_map]
    exact List.map_congr_left fun r _ => hro r

theorem outerJoin_keys_nodup (kg : γ → K)
    (hls : (ls.map kl).Nodup) (hrs : (rs.map kr).Nodup)
    (hbo : ∀ l r, kr r = kl l → kg (bo l r) = kl l)
    (hlo : ∀ l, kg (lo l) = kl l)
    (hro : ∀ r, kg (ro r) = kr r) :
    ((outerJoin ls rs kl kr bo lo ro).map kg).Nodup := by
  rw [outerJoin_keys kg hrs hbo hlo hro, List.nodup_append]
  refine ⟨hls, ((List.filter_sublist rs).map kr).nodup hrs, ?_⟩
  intro k hk1 hk2
  rcases List.mem_map.mp hk2 with ⟨r, hrf, hkr⟩
  have hp := (List.mem_filter.mp hrf).2
  rcases List.mem_map.mp hk1 with ⟨l, hl, hkl⟩
  rw [Bool.not_eq_true'] at hp
  have := List.any_eq_false.mp hp l hl
  exact this (by simp [hkl, hkr])

end JoinLemmas

theorem fillVal_ne_na (v : Val) : fillVal v ≠ Val.na := by
  cases v <;> simp [fillVal]

theorem fillVal_of_ne_na {v : Val} (h : v ≠ Val.na) : fillVal v = v := by
  cases v with
  | str s => rfl
  | int a => rfl
  | na => exact absurd rfl h

theorem numOrNa_fillVal {v : Val} (h : numOrNa v = true) : ∃ a : Int, fillVal v = Val.int a := by
  cases v with
  | str s => simp [numOrNa] at h
  | int a => exact ⟨a, rfl⟩
  | na => exact ⟨0, rfl⟩

theorem join1_cases {cs ds : List LongRow} {m : CDRow} (hm : m ∈ join1 cs ds) :
    (∃ c ∈ cs, CDRow.key m = LongRow.key c ∧ m.confirmed = c.value ∧
      (m.deaths = Val.na ∨ ∃ d ∈ ds, CDRow.key m = LongRow.key d ∧ m.deaths = d.value)) ∨
    (∃ d ∈ ds, CDRow.key m = LongRow.key d ∧ m.confirmed = Val.na ∧ m.deaths = d.value) := by
  rcases mem_outerJoin_cases hm with ⟨c, hc, d, hd, hk, hx⟩ | ⟨c, hc, _, hx⟩ | ⟨d, hd, _, hx⟩
  · subst hx
    exact Or.inl ⟨c, hc, rfl, rfl, Or.inr ⟨d, hd, by simpa [CDRow.key, LongRow.key] using hk.symm, rfl⟩⟩
  · subst hx
    exact Or.inl ⟨c, hc, rfl, rfl, Or.inl rfl⟩
  · subst hx
    exact Or.inr ⟨d, hd, rfl, rfl, rfl⟩

theorem join2_cases {ms : List CDRow} {rs : List LongRow} {j : FullRow} (hj : j ∈ join2 ms rs) :
    (∃ m ∈ ms, FullRow.key j = CDRow.key m ∧ j.confirmed = m.confirmed ∧ j.deaths = m.deaths ∧
      (j.recovered = Val.na ∨ ∃ r ∈ rs, FullRow.key j = LongRow.key r ∧ j.recovered = r.value)) ∨
    (∃ r ∈ rs, FullRow.key j = LongRow.key r ∧ j.confirmed = Val.na ∧ j.deaths = Val.na ∧
      j.recovered = r.value) := by
  rcases mem_outerJoin_cases hj with ⟨m, hm, r, hr, hk, hx⟩ | ⟨m, hm, _, hx⟩ | ⟨r, hr, _, hx⟩
  · subst hx
    exact Or.inl ⟨m, hm, rfl, rfl, rfl,
      Or.inr ⟨r, hr, by simpa [FullRow.key, CDRow.key, LongRow.key] using hk.symm, rfl⟩⟩
  · subst hx
    exact Or.inl ⟨m, hm, rfl, rfl, rfl, Or.inl rfl⟩
  · subst hx
    exact Or.inr ⟨r, hr, rfl, rfl, rfl, rfl⟩

theorem join1_confirmed_absent {cs ds : List LongRow} {m : CDRow} (hm : m ∈ join1 cs ds)
    (habs : CDRow.key m ∉ cs.map LongRow.key) : m.confirmed = Val.na := by
  rcases join1_cases hm with ⟨c, hc, hk, _, _⟩ | ⟨_, _, _, hna, _⟩
  · exact absurd (hk ▸ List.mem_map.mpr ⟨c, hc, rfl⟩) habs
  · exact hna

theorem join1_deaths_absent {cs ds : List LongRow} {m : CDRow} (hm : m ∈ join1 cs ds)
    (habs : CDRow.key m ∉ ds.map LongRow.key) : m.deaths = Val.na := by
  rcases join1_cases hm with ⟨_, _, _, _, hd⟩ | ⟨d, hd, hk, _, _⟩
  · rcases hd with hna | ⟨d, hd, hk, _⟩
    · exact hna
    · exact absurd (hk ▸ List.mem_map.mpr ⟨d, hd, rfl⟩) habs
  · exact absurd (hk ▸ List.mem_map.mpr ⟨d, hd, rfl⟩) habs

theorem join2_recovered_absent {ms : List CDRow} {rs : List LongRow} {j : FullRow}
    (hj : j ∈ join2 ms rs) (habs : FullRow.key j ∉ rs.map LongRow.key) : j.recovered = Val.na := by
  rcases join2_cases hj with ⟨_, _, _, _, _, hrec⟩ | ⟨r, hr, hk, _, _, _⟩
  · rcases hrec with hna | ⟨r, hr, hk, _⟩
    · exact hna
    · exact absurd (hk ▸ List.mem_map.mpr ⟨r, hr, rfl⟩) habs
  · exact absurd (hk ▸ List.mem_map.mpr ⟨r, hr, rfl⟩) habs

theorem join2_confirmed_absent {cs ds rs : List LongRow} {j : FullRow}
    (hj : j ∈ join2 (join1 cs ds) rs) (habs : FullRow.key j ∉ cs.map LongRow.key) :
    j.confirmed = Val.na := by
  rcases join2_cases hj with ⟨m, hm, hk, hcf, _, _⟩ | ⟨_, _, _, hna, _, _⟩
  · rw [hcf]
    exact join1_confirmed_absent hm (by rw [← hk]; exact habs)
  · exact hna

theorem join2_deaths_absent {cs ds rs : List LongRow} {j : FullRow}
    (hj : j ∈ join2 (join1 cs ds) rs) (habs : FullRow.key j ∉ ds.map LongRow.key) :
    j.deaths = Val.na := by
  rcases join2_cases hj with ⟨m, hm, hk, _, hdt, _⟩ | ⟨_, _, _, _, hna, _⟩
  · rw [hdt]
    exact join1_deaths_absent hm (by rw [← hk]; exact habs)
  · exact hna

theorem join1_key_mem {cs ds : List LongRow} {m : CDRow} (hm : m ∈ join1 cs ds) :
    CDRow.key m ∈ cs.map LongRow.key ∨ CDRow.key m ∈ ds.map LongRow.key := by
  rcases join1_cases hm with ⟨c, hc, hk, _, _⟩ | ⟨d, hd, hk, _, _⟩
  · exact Or.inl (hk ▸ List.mem_map.mpr ⟨c, hc, rfl⟩)
  · exact Or.inr (hk ▸ List.mem_map.mpr ⟨d, hd, rfl⟩)

theorem join2_key_mem {ms : List CDRow} {rs : List LongRow} {j : FullRow} (hj : j ∈ join2 ms rs) :
    FullRow.key j ∈ ms.map CDRow.key ∨ FullRow.key j ∈ rs.map LongRow.key := by
  rcases join2_cases hj with ⟨m, hm, hk, _, _, _⟩ | ⟨r, hr, hk, _, _, _⟩
  · exact Or.inl (hk ▸ List.mem_map.mpr ⟨m, hm, rfl⟩)
  · exact Or.inr (hk ▸ List.mem_map.mpr ⟨r, hr, rfl⟩)

theorem join1_values_num {cs ds : List LongRow} {m : CDRow} (hm : m ∈ join1 cs ds)
    (hc : ∀ c ∈ cs, numOrNa c.value = true) (hd : ∀ d ∈ ds, numOrNa d.value = true) :
    numOrNa m.confirmed = true ∧ numOrNa m.deaths = true := by
  rcases join1_cases hm with ⟨c, hcm, _, hcf, hdt⟩ | ⟨d, hdm, _, hcf, hdt⟩
  · refine ⟨hcf ▸ hc c hcm, ?_⟩
    rcases hdt with hna | ⟨d, hdm, _, hdt⟩
    · simp [hna, numOrNa]
    · exact hdt ▸ hd d hdm
  · exact ⟨by simp [hcf, numOrNa], hdt ▸ hd d hdm⟩

theorem join2_values_num {ms : List CDRow} {rs : List LongRow} {j : FullRow} (hj : j ∈ join2 ms rs)
    (hms : ∀ m ∈ ms, numOrNa m.confirmed = true ∧ numOrNa m.deaths = true)
    (hr : ∀ r ∈ rs, numOrNa r.value = true) :
    numOrNa j.confirmed = true ∧ numOrNa j.deaths = true ∧ numOrNa j.recovered = true := by
  rcases join2_cases hj with ⟨m, hmm, _, hcf, hdt, hrec⟩ | ⟨r, hrm, _, hcf, hdt, hrec⟩
  · refine ⟨hcf ▸ (hms m hmm).1, hdt ▸ (hms m hmm).2, ?_⟩
    rcases hrec with hna | ⟨r, hrm, _, hrec⟩
    · simp [hna, numOrNa]
    · exact hrec ▸ hr r hrm
  · exact ⟨by simp [hcf, numOrNa], by simp [hdt, numOrNa], hrec ▸ hr r hrm⟩

theorem merged_active_eq {cs ds rs : List LongRow} {u : URow} (hu : u ∈ merge_datasets cs ds rs) :
    u.active = vsub (vsub u.confirmed u.deaths) u.recovered := by
  unfold merge_datasets at hu
  rcases List.mem_map.mp hu with ⟨f, _, hx⟩
  subst hx
  rfl

theorem merged_fields_int {cs ds rs : List LongRow}
    (hc : ∀ c ∈ cs, numOrNa c.value = true) (hd : ∀ d ∈ ds, numOrNa d.value = true)
    (hr : ∀ r ∈ rs, numOrNa r.value = true) {u : URow} (hu : u ∈ merge_datasets cs ds rs) :
    ∃ a b c : Int, u.confirmed = Val.int a ∧ u.deaths = Val.int b ∧
      u.recovered = Val.int c ∧ u.active = Val.int (a - b - c) := by
  unfold merge_datasets at hu
  rcases List.mem_map.mp hu with ⟨f, hf, hx⟩
  rcases List.mem_map.mp hf with ⟨j, hj, hy⟩
  subst hx hy
  have hnum := join2_values_num hj (fun m hm => join1_values_num hm hc hd) hr
  rcases numOrNa_fillVal hnum.1 with ⟨a, ha⟩
  rcases numOrNa_fillVal hnum.2.1 with ⟨b, hb⟩
  rcases numOrNa_fillVal hnum.2.2 with ⟨c, hcv⟩
  refine ⟨a, b, c, ?_, ?_, ?_, ?_⟩
  · simpa [addActive, fillRow] using ha
  · simpa [addActive, fillRow] using hb
  · simpa [addActive, fillRow] using hcv
  · show vsub (vsub (fillVal j.confirmed) (fillVal j.deaths)) (fillVal j.recovered) = _
    rw [ha, hb, hcv]
    rfl

theorem merged_fields_ne_na {cs ds rs : List LongRow} {u : URow}
    (hu : u ∈ merge_datasets cs ds rs) :
    u.country_region ≠ Val.na ∧ u.province_state ≠ Val.na ∧ u.date ≠ Val.na ∧
      u.confirmed ≠ Val.na ∧ u.deaths ≠ Val.na ∧ u.recovered ≠ Val.na := by
  unfold merge_datasets at hu
  rcases List.mem_map.mp hu with ⟨f, hf, hx⟩
  rcases List.mem_map.mp hf with ⟨j, _, hy⟩
  subst hx hy
  exact ⟨fillVal_ne_na _, fillVal_ne_na _, fillVal_ne_na _,
    fillVal_ne_na _, fillVal_ne_na _, fillVal_ne_na _⟩

theorem join1_region_total {cs : List LongRow} (ds : List LongRow) {c : LongRow} (hc : c ∈ cs) :
    ∃ m ∈ join1 cs ds, m.country_region = c.country_region := by
  rcases outerJoin_left_total cs ds LongRow.key LongRow.key
      (fun c d => (⟨c.country_region, c.province_state, c.date, c.value, d.value⟩ : CDRow))
      (fun c => ⟨c.country_region, c.province_state, c.date, c.value, Val.na⟩)
      (fun d => ⟨d.country_region, d.province_state, d.date, Val.na, d.value⟩) hc with
    ⟨m, hm, hcase⟩
  refine ⟨m, hm, ?_⟩
  rcases hcase with ⟨d, _, rfl⟩ | rfl <;> rfl

theorem join2_region_total {ms : List CDRow} (rs : List LongRow) {m : CDRow} (hm : m ∈ ms) :
    ∃ j ∈ join2 ms rs, j.country_region = m.country_region := by
  rcases outerJoin_left_total ms rs CDRow.key LongRow.key
      (fun m r => (⟨m.country_region, m.province_state, m.date, m.confirmed, m.deaths,
        r.value⟩ : FullRow))
      (fun m => ⟨m.country_region, m.province_state, m.date, m.confirmed, m.deaths, Val.na⟩)
      (fun r => ⟨r.country_region, r.province_state, r.date, Val.na, Val.na, r.value⟩) hm with
    ⟨j, hj, hcase⟩
  refine ⟨j, hj, ?_⟩
  rcases hcase with ⟨r, _, rfl⟩ | rfl <;> rfl

theorem join1_keys_nodup {cs ds : List LongRow} (h1 : (cs.map LongRow.key).Nodup)
    (h2 : (ds.map LongRow.key).Nodup) : ((join1 cs ds).map CDRow.key).Nodup := by
  unfold join1
  exact outerJoin_keys_nodup CDRow.key h1 h2 (fun _ _ _ => rfl) (fun _ => rfl) (fun _ => rfl)

theorem join2_keys_nodup {ms : List CDRow} {rs : List LongRow} (h1 : (ms.map CDRow.key).Nodup)
    (h2 : (rs.map LongRow.key).Nodup) : ((join2 ms rs).map FullRow.key).Nodup := by
  unfold join2
  exact outerJoin_keys_nodup FullRow.key h1 h2 (fun _ _ _ => rfl) (fun _ => rfl) (fun _ => rfl)

theorem key_na_free_of_long {rows : List LongRow}
    (hkeys : ∀ r ∈ rows, r.country_region ≠ Val.na ∧ r.province_state ≠ Val.na ∧
      r.date ≠ Val.na)
    {k : MKey} (hk : k ∈ rows.map LongRow.key) :
    k.1 ≠ Val.na ∧ k.2.1 ≠ Val.na ∧ k.2.2 ≠ Val.na := by
  rcases List.mem_map.mp hk with ⟨c, hc, hkc⟩
  subst hkc
  exact hkeys c hc

theorem merged_join_key_na_free {cs ds rs : List LongRow}
    (hkeys : ∀ r ∈ cs ++ ds ++ rs, r.country_region ≠ Val.na ∧ r.province_state ≠ Val.na ∧
      r.date ≠ Val.na)
    {j : FullRow} (hj : j ∈ join2 (join1 cs ds) rs) :
    (FullRow.key j).1 ≠ Val.na ∧ (FullRow.key j).2.1 ≠ Val.na ∧ (FullRow.key j).2.2 ≠ Val.na := by
  have hcs : ∀ r ∈ cs, r.country_region ≠ Val.na ∧ r.province_state ≠ Val.na ∧
      r.date ≠ Val.na := fun r hr => hkeys r (by simp [hr])
  have hds : ∀ r ∈ ds, r.country_region ≠ Val.na ∧ r.province_state ≠ Val.na ∧
      r.date ≠ Val.na := fun r hr => hkeys r (by simp [hr])
  have hrs : ∀ r ∈ rs, r.country_region ≠ Val.na ∧ r.province_state ≠ Val.na ∧
      r.date ≠ Val.na := fun r hr => hkeys r (by simp [hr])
  rcases join2_key_mem hj with hin | hin
  · rcases List.mem_map.mp hin with ⟨m, hm, hkm⟩
    rcases join1_key_mem hm with hin2 | hin2
    · have h := key_na_free_of_long hcs hin2
      rw [hkm] at h
      exact h
    · have h := key_na_free_of_long hds hin2
      rw [hkm] at h
      exact h
  · exact key_na_free_of_long hrs hin

/-- Claim C2: for every row of the Merger's output, `active` equals
`confirmed − deaths − recovered` on the post-fill fields, and (for
numeric inputs, the only ones the subtraction accepts) it is the exact
integer `a − b − c`, negative values included, with no clamping. -/
theorem c2_active_derivation (cs ds rs : List LongRow) :
    (∀ u ∈ merge_datasets cs ds rs,
      u.active = vsub (vsub u.confirmed u.deaths) u.recovered) ∧
    ((∀ c ∈ cs, numOrNa c.value = true) → (∀ d ∈ ds, numOrNa d.value = true) →
      (∀ r ∈ rs, numOrNa r.value = true) →
      ∀ u ∈ merge_datasets cs ds rs,
        ∃ a b c : Int, u.confirmed = Val.int a ∧ u.deaths = Val.int b ∧
          u.recovered = Val.int c ∧ u.active = Val.int (a - b - c)) :=
  ⟨fun _ hu => merged_active_eq hu,
   fun hc hd hr _ hu => merged_fields_int hc hd hr hu⟩

/-- Witness for C2 at a concrete one-row confirmed input. -/
theorem c2_active_derivation_apply :
    uActive ∈ merge_datasets csActive [] [] ∧
    ∃ a b c : Int, uActive.confirmed = Val.int a ∧ uActive.deaths = Val.int b ∧
      uActive.recovered = Val.int c ∧ uActive.active = Val.int (a - b - c) :=
  ⟨by decide,
   (c2_active_derivation csActive [] []).2 (by decide) (by decide) (by decide) uActive
     (by decide)⟩

/-- Claim C3: the Merger's output is exactly the full three-way join
followed by fill and the active derivation; a metric absent from its
input table for a key comes out as 0; and the intermediate pairwise
join still carries the absence as NaN — the zero-fill happens only
after both outer joins. -/
theorem c3_zero_fill_after_full_join (cs ds rs : List LongRow) :
    merge_datasets cs ds rs = (join2 (join1 cs ds) rs).map (fun j => addActive (fillRow j)) ∧
    (∀ j ∈ join2 (join1 cs ds) rs,
      (FullRow.key j ∉ cs.map LongRow.key → (addActive (fillRow j)).confirmed = Val.int 0) ∧
      (FullRow.key j ∉ ds.map LongRow.key → (addActive (fillRow j)).deaths = Val.int 0) ∧
      (FullRow.key j ∉ rs.map LongRow.key → (addActive (fillRow j)).recovered = Val.int 0)) ∧
    (∀ m ∈ join1 cs ds,
      (CDRow.key m ∉ cs.map LongRow.key → m.confirmed = Val.na) ∧
      (CDRow.key m ∉ ds.map LongRow.key → m.deaths = Val.na)) := by
  refine ⟨?_, ?_, ?_⟩
  · unfold merge_datasets
    rw [List.map_map]
    rfl
  · intro j hj
    refine ⟨fun h => ?_, fun h => ?_, fun h => ?_⟩
    · show fillVal j.confirmed = Val.int 0
      rw [join2_confirmed_absent hj h]
      rfl
    · show fillVal j.deaths = Val.int 0
      rw [join2_deaths_absent hj h]
      rfl
    · show fillVal j.recovered = Val.int 0
      rw [join2_recovered_absent hj h]
      rfl
  · intro m hm
    exact ⟨join1_confirmed_absent hm, join1_deaths_absent hm⟩

/-- Witness for C3 at a concrete one-row confirmed input: deaths and
recovered were absent for the key, and come out as 0. -/
theorem c3_zero_fill_apply :
    jFill ∈ join2 (join1 csFill []) [] ∧
    (addActive (fillRow jFill)).deaths = Val.int 0 ∧
    (addActive (fillRow jFill)).recovered = Val.int 0 :=
  ⟨by decide,
   ((c3_zero_fill_after_full_join csFill [] []).2.1 jFill (by decide)).2.1 (by decide),
   ((c3_zero_fill_after_full_join csFill [] []).2.1 jFill (by decide)).2.2 (by decide)⟩

/-- Counterexample to C4 as stated: each input table has unique keys,
yet the output has a duplicate key, because `fillna(0)` also rewrites a
null region to the number 0, colliding with a key that already carried
the number 0 as its region. -/
theorem c4_key_uniqueness_fails_on_null_key :
    (csKeyNa.map LongRow.key).Nodup ∧ (dsKeyZero.map LongRow.key).Nodup ∧
    (([] : List LongRow).map LongRow.key).Nodup ∧
    ¬ ((merge_datasets csKeyNa dsKeyZero []).map URow.key).Nodup := by
  refine ⟨by decide, by decide, by decide, by decide⟩

/-- Claim C4 (amended): for inputs with unique keys per metric table
whose key fields are additionally non-null, the Merger's output has a
unique (region, sub-region, date) key for every row. -/
theorem c4_merge_key_uniqueness (cs ds rs : List LongRow)
    (hkeys : ∀ r ∈ cs ++ ds ++ rs,
      r.country_region ≠ Val.na ∧ r.province_state ≠ Val.na ∧ r.date ≠ Val.na)
    (h1 : (cs.map LongRow.key).Nodup) (h2 : (ds.map LongRow.key).Nodup)
    (h3 : (rs.map LongRow.key).Nodup) :
    ((merge_datasets cs ds rs).map URow.key).Nodup := by
  have hj2 : ((join2 (join1 cs ds) rs).map FullRow.key).Nodup :=
    join2_keys_nodup (join1_keys_nodup h1 h2) h3
  have hmapeq : (merge_datasets cs ds rs).map URow.key =
      (join2 (join1 cs ds) rs).map FullRow.key := by
    unfold merge_datasets
    rw [List.map_map, List.map_map]
    apply List.map_congr_left
    intro j hj
    have hfree := merged_join_key_na_free hkeys hj
    have ha : j.country_region ≠ Val.na := hfree.1
    have hb : j.province_state ≠ Val.na := hfree.2.1
    have hcd : j.date ≠ Val.na := hfree.2.2
    show (fillVal j.country_region, fillVal j.province_state, fillVal j.date) = FullRow.key j
    rw [fillVal_of_ne_na ha, fillVal_of_ne_na hb, fillVal_of_ne_na hcd]
    rfl
  rw [hmapeq]
  exact hj2

/-- Witness for the amended C4 at a concrete well-formed input. -/
theorem c4_merge_key_uniqueness_apply :
    (∀ r ∈ csUniq ++ ([] : List LongRow) ++ ([] : List LongRow),
      r.country_region ≠ Val.na ∧ r.province_state ≠ Val.na ∧ r.date ≠ Val.na) ∧
    ((merge_datasets csUniq [] []).map URow.key).Nodup :=
  ⟨by decide, c4_merge_key_uniqueness csUniq [] [] (by decide) (by decide) (by decide) (by decide)⟩

/-- Claim C9: on any dataset the Merger itself produced from numeric
inputs, the Quality Gate's active-consistency check finds zero
inconsistent records and appends no error. -/
theorem c9_merger_passes_consistency_check (cs ds rs : List LongRow) (es : List String)
    (hc : ∀ c ∈ cs, numOrNa c.value = true) (hd : ∀ d ∈ ds, numOrNa d.value = true)
    (hr : ∀ r ∈ rs, numOrNa r.value = true) :
    check_logical_consistency (merge_datasets cs ds rs) es = (es, true) := by
  have hnil : (merge_datasets cs ds rs).filter
      (fun r => pdNe r.active (expected_active r)) = [] := by
    rw [List.filter_eq_nil_iff]
    intro u hu
    rcases merged_fields_int hc hd hr hu with ⟨a, b, c, ha, hb, hcv, hact⟩
    simp [expected_active, ha, hb, hcv, hact, vsub, pdNe]
  simp [check_logical_consistency, hnil]

/-- Witness for C9 at a concrete one-row confirmed input. -/
theorem c9_merger_passes_consistency_check_apply :
    check_logical_consistency (merge_datasets csCons [] []) [] = ([], true) :=
  c9_merger_passes_consistency_check csCons [] [] [] (by decide) (by decide) (by decide)

/-- Claim C10: the Merger's `fillna(0)` hits every column, so all six
stored fields of every output row are non-null, the nullness rule never
appends an error on Merger output, and a null region from the source is
silently replaced by the number 0 instead of being reported. -/
theorem c10_fillna_covers_all_columns (cs ds rs : List LongRow) :
    (∀ u ∈ merge_datasets cs ds rs,
      u.country_region ≠ Val.na ∧ u.province_state ≠ Val.na ∧ u.date ≠ Val.na ∧
        u.confirmed ≠ Val.na ∧ u.deaths ≠ Val.na ∧ u.recovered ≠ Val.na) ∧
    check_null_values (merge_datasets cs ds rs) [] = ([], true) ∧
    (∀ c ∈ cs, c.country_region = Val.na →
      ∃ u ∈ merge_datasets cs ds rs, u.country_region = Val.int 0) := by
  have hkey : ∀ (f : URow → Val), (∀ u ∈ merge_datasets cs ds rs, f u ≠ Val.na) →
      countNull (merge_datasets cs ds rs) f = 0 := by
    intro f hf
    unfold countNull
    rw [List.length_eq_zero, List.filter_eq_nil_iff]
    intro u hu
    simpa using hf u hu
  refine ⟨fun _ hu => merged_fields_ne_na hu, ?_, ?_⟩
  · have e1 := hkey URow.country_region fun u hu => (merged_fields_ne_na hu).1
    have e2 := hkey URow.date fun u hu => (merged_fields_ne_na hu).2.2.1
    have e3 := hkey URow.confirmed fun u hu => (merged_fields_ne_na hu).2.2.2.1
    have e4 := hkey URow.deaths fun u hu => (merged_fields_ne_na hu).2.2.2.2.1
    simp [check_null_values, criticalColumns, e1, e2, e3, e4]
  · intro c hc hna
    rcases join1_region_total ds hc with ⟨m, hm, hmr⟩
    rcases join2_region_total rs hm with ⟨j, hj, hjr⟩
    refine ⟨addActive (fillRow j), ?_, ?_⟩
    · exact List.mem_map.mpr ⟨fillRow j, List.mem_map.mpr ⟨j, hj, rfl⟩, rfl⟩
    · show fillVal j.country_region = Val.int 0
      rw [hjr, hmr, hna]
      rfl

/-- Witness for C10 at a concrete input with a null region. -/
theorem c10_fillna_covers_all_columns_apply :
    check_null_values (merge_datasets csNaRegion [] []) [] = ([], true) ∧
    ∃ u ∈ merge_datasets csNaRegion [] [], u.country_region = Val.int 0 :=
  ⟨(c10_fillna_covers_all_columns csNaRegion [] []).2.1,
   (c10_fillna_covers_all_columns csNaRegion [] []).2.2
     ⟨Val.na, Val.str "All", Val.int 18303, Val.int 2⟩ (by decide) rfl⟩

theorem check_null_values_errors (df : List URow) (es : List String) :
    (check_null_values df es).1 = es ++ (check_null_values df []).1 := by
  simp only [check_null_values, criticalColumns, List.foldl_cons, List.foldl_nil]
  split_ifs <;> simp

theorem check_date_range_errors (now : Int) (df : List URow) (es : List String) :
    (check_date_range now df es).1 = es ++ (check_date_range now df []).1 := by
  simp only [check_date_range]
  split_ifs <;> simp

theorem check_logical_consistency_errors (df : List URow) (es : List String) :
    (check_logical_consistency df es).1 = es ++ (check_logical_consistency df []).1 := by
  simp only [check_logical_consistency]
  split_ifs <;> simp

theorem date_seg_nil_iff (now : Int) (df : List URow) :
    (check_date_range now df []).1 = [] ↔ (df.filter (isInvalidDate now)).length = 0 := by
  constructor
  · intro h0
    simp only [check_date_range] at h0
    split_ifs at h0 with h
    · simp at h0
    · omega
  · intro h0
    simp only [check_date_range]
    rw [if_neg (by omega)]

theorem cons_seg_nil_iff (df : List URow) :
    (check_logical_consistency df []).1 = [] ↔
      (df.filter fun r => pdNe r.active (expected_active r)).length = 0 := by
  constructor
  · intro h0
    simp only [check_logical_consistency] at h0
    split_ifs at h0 with h
    · simp at h0
    · omega
  · intro h0
    simp only [check_logical_consistency]
    rw [if_neg (by omega)]

/-- Claim C1: the Quality Gate admits a dataset exactly when no
blocking rule appended an error (the error list is empty), and the
returned warnings are exactly those of the non-blocking
negative-values rule, which never touches the admit flag. -/
theorem c1_admit_iff_no_blocking_error (now : Int) (df : List URow) :
    ((validate_all now df).1 = true ↔ (validate_all now df).2.1 = []) ∧
    (validate_all now df).2.2 = (check_negative_values df []).1 := by
  refine ⟨?_, rfl⟩
  have hE : (validate_all now df).2.1 =
      ((check_null_values df []).1 ++ (check_date_range now df []).1) ++
        (check_logical_consistency df []).1 := by
    show (check_logical_consistency df
      (check_date_range now df (check_null_values df []).1).1).1 = _
    rw [check_logical_consistency_errors, check_date_range_errors]
  have hA : (validate_all now df).1 = (((check_null_values df []).1.length == 0) &&
      true && ((df.filter (isInvalidDate now)).length == 0) &&
      ((df.filter fun r => pdNe r.active (expected_active r)).length == 0)) := rfl
  rw [hA, hE]
  simp only [Bool.and_eq_true, beq_iff_eq, List.append_eq_nil, List.length_eq_zero,
    and_true, true_and]
  constructor
  · rintro ⟨⟨h1, h3⟩, h4⟩
    exact ⟨⟨h1, (date_seg_nil_iff now df).mpr (by simpa using h3)⟩,
      (cons_seg_nil_iff df).mpr (by simpa using h4)⟩
  · rintro ⟨⟨h1, hD⟩, hC⟩
    refine ⟨⟨h1, ?_⟩, ?_⟩
    · simpa using (date_seg_nil_iff now df).mp hD
    · simpa using (cons_seg_nil_iff df).mp hC

/-- Counterexample to C8 as stated: the date-range rule compares
against the wall clock, so two runs of the gate on the same records at
different times return different reports when a record's date lies
between the two clocks. -/
theorem c8_gate_depends_on_wall_clock :
    validate_all min_date [c8row] ≠ validate_all (min_date + 20) [c8row] := by decide

/-- Claim C8 (amended): given the same record sequence and the same
validation wall-clock timestamp, the gate returns the identical
(admit, errors, warnings) tuple, and the error list is always the
null-check, date-check, consistency-check segments in that fixed
order. -/
theorem c8_gate_deterministic_given_clock (now now2 : Int) (df df2 : List URow)
    (hn : now = now2) (hd : df = df2) :
    validate_all now df = validate_all now2 df2 ∧
    (validate_all now df).2.1 =
      ((check_null_values df []).1 ++ (check_date_range now df []).1) ++
        (check_logical_consistency df []).1 := by
  subst hn hd
  refine ⟨rfl, ?_⟩
  show (check_logical_consistency df
    (check_date_range now df (check_null_values df []).1).1).1 = _
  rw [check_logical_consistency_errors, check_date_range_errors]

/-- Witness for the amended C8 at a concrete run. -/
theorem c8_gate_deterministic_given_clock_apply :
    validate_all min_date [c8row] = validate_all min_date [c8row] ∧
    (validate_all min_date [c8row]).2.1 =
      ((check_null_values [c8row] []).1 ++ (check_date_range min_date [c8row] []).1) ++
        (check_logical_consistency [c8row] []).1 :=
  c8_gate_deterministic_given_clock min_date min_date [c8row] [c8row] rfl rfl

theorem meltCols_length (rows : List (List Val)) :
    ∀ (j : Nat) (cs : List String), (meltCols rows j cs).length = cs.length * rows.length := by
  intro j cs
  induction cs generalizing j with
  | nil => simp [meltCols]
  | cons c t ih =>
    simp only [meltCols, List.length_append, List.length_map, ih, List.length_cons]
    ring

theorem parseAll_ok_length (parse : String → Option Int) :
    ∀ (es : List MeltEntry) (out : List MeltRow), parseAll parse es = Except.ok out →
      out.length = es.length := by
  intro es
  induction es with
  | nil =>
    intro out h
    simp only [parseAll, Except.ok.injEq] at h
    rw [← h]
    rfl
  | cons e t ih =>
    intro out h
    simp only [parseAll] at h
    cases hp : parse e.label with
    | none =>
      rw [hp] at h
      simp at h
    | some d =>
      rw [hp] at h
      cases hq : parseAll parse t with
      | ok out2 =>
        rw [hq] at h
        simp only [Except.ok.injEq] at h
        rw [← h]
        simp [ih out2 hq]
      | error m =>
        rw [hq] at h
        simp at h

theorem meltCols_label_mem (rows : List (List Val)) (hrow : rows ≠ []) :
    ∀ (j : Nat) (cs : List String) (c : String), c ∈ cs →
      ∃ e ∈ meltCols rows j cs, e.label = c := by
  intro j cs
  induction cs generalizing j with
  | nil =>
    intro c hc
    simp at hc
  | cons c0 t ih =>
    intro c hc
    rcases List.mem_cons.mp hc with rfl | hc
    · rcases List.exists_mem_of_ne_nil rows hrow with ⟨row, hrowm⟩
      refine ⟨⟨c, row, row.getD (4 + j) Val.na⟩, ?_, rfl⟩
      simp only [meltCols]
      exact List.mem_append.mpr (Or.inl (List.mem_map.mpr ⟨row, hrowm, rfl⟩))
    · rcases ih (j + 1) c hc with ⟨e, he, hel⟩
      refine ⟨e, ?_, hel⟩
      simp only [meltCols]
      exact List.mem_append.mpr (Or.inr he)

theorem parseAll_error_of_bad (parse : String → Option Int) :
    ∀ (es : List MeltEntry), (∃ e ∈ es, parse e.label = none) →
      ∃ msg, parseAll parse es = Except.error msg := by
  intro es
  induction es with
  | nil =>
    rintro ⟨e, he, _⟩
    simp at he
  | cons e0 t ih =>
    rintro ⟨e, he, hbad⟩
    rcases List.mem_cons.mp he with rfl | he
    · exact ⟨"Unable to parse date: " ++ e.label, by simp [parseAll, hbad]⟩
    · cases hp : parse e0.label with
      | none => exact ⟨"Unable to parse date: " ++ e0.label, by simp [parseAll, hp]⟩
      | some d =>
        rcases ih ⟨e, he, hbad⟩ with ⟨m, hm⟩
        exact ⟨m, by simp [parseAll, hp, hm]⟩

/-- Claim C5: for a wide table with R rows and D date columns (the
columns after the first 4 identifier columns), a successful reshape
yields exactly R×D long records, with no deduplication. -/
theorem c5_reshape_row_count (parse : String → Option Int) (df : WideTable)
    (out : List MeltRow) (h : pivot_to_long_format parse df = Except.ok out) :
    out.length = df.rows.length * (df.cols.drop 4).length := by
  have h1 := parseAll_ok_length parse (melt df) out h
  rw [h1]
  unfold melt
  rw [meltCols_length]
  ring

/-- Witness for C5 at the concrete 2×2 wide table. -/
theorem c5_reshape_row_count_apply :
    pivot_to_long_format parseZero sampleWide = Except.ok sampleLong ∧
    sampleLong.length = sampleWide.rows.length * (sampleWide.cols.drop 4).length :=
  ⟨rfl, c5_reshape_row_count parseZero sampleWide sampleLong rfl⟩

/-- Counterexample to C7 as stated: a wide table with an unparseable
date-column label but no data rows reshapes successfully (the date
conversion runs over the melted — empty — date column), producing
empty output instead of a fatal error. -/
theorem c7_bad_label_not_always_fatal :
    (∃ c ∈ wideBadLabel.cols.drop 4, parseNone c = none) ∧
    pivot_to_long_format parseNone wideBadLabel = Except.ok [] :=
  ⟨⟨"notadate", by decide, rfl⟩, rfl⟩

/-- Claim C7 (amended): for every wide table with at least one data
row, an unparseable date-column label makes the reshape fail with an
error for the whole run, producing no partial long-format output. -/
theorem c7_bad_label_fatal (parse : String → Option Int) (df : WideTable)
    (hrows : df.rows ≠ []) (hbad : ∃ c ∈ df.cols.drop 4, parse c = none) :
    ∃ msg, pivot_to_long_format parse df = Except.error msg := by
  rcases hbad with ⟨c, hc, hbadc⟩
  rcases meltCols_label_mem df.rows hrows 0 (df.cols.drop 4) c hc with ⟨e, he, hel⟩
  exact parseAll_error_of_bad parse (melt df) ⟨e, he, by rw [hel]; exact hbadc⟩

/-- Witness for the amended C7 at a concrete one-row wide table. -/
theorem c7_bad_label_fatal_apply :
    wideBadRow.rows ≠ [] ∧ (∃ c ∈ wideBadRow.cols.drop 4, parseNone c = none) ∧
    ∃ msg, pivot_to_long_format parseNone wideBadRow = Except.error msg :=
  ⟨by decide, ⟨"notadate", by decide, rfl⟩,
   c7_bad_label_fatal parseNone wideBadRow (by decide) ⟨"notadate", by decide, rfl⟩⟩

/-- Claim C6: the Normalizer assigns the sentinel "All" to every record
whose sub-region is missing, leaves every other field value unchanged
(up to the renaming and the dropped coordinates), and outputs no null
sub-region. -/
theorem c6_subregion_defaulting (df : List MeltRow) :
    (clean_data df).length = df.length ∧
    (∀ r ∈ clean_data df, r.province_state ≠ Val.na) ∧
    (∀ i (hi : i < df.length) (ho : i < (clean_data df).length),
      ((clean_data df).get ⟨i, ho⟩).country_region = (df.get ⟨i, hi⟩).countryRegion ∧
      ((clean_data df).get ⟨i, ho⟩).date = (df.get ⟨i, hi⟩).date ∧
      ((clean_data df).get ⟨i, ho⟩).value = (df.get ⟨i, hi⟩).value ∧
      ((df.get ⟨i, hi⟩).provinceState = Val.na →
        ((clean_data df).get ⟨i, ho⟩).province_state = Val.str "All") ∧
      ((df.get ⟨i, hi⟩).provinceState ≠ Val.na →
        ((clean_data df).get ⟨i, ho⟩).province_state = (df.get ⟨i, hi⟩).provinceState)) := by
  refine ⟨by simp [clean_data], ?_, ?_⟩
  · intro r hr
    rcases List.mem_map.mp hr with ⟨m, _, rfl⟩
    show (if m.provinceState = Val.na then Val.str "All" else m.provinceState) ≠ Val.na
    split_ifs with h
    · simp
    · exact h
  · intro i hi ho
    have hg : (clean_data df).get ⟨i, ho⟩ = cleanRow (df.get ⟨i, hi⟩) := by
      simp [clean_data, List.get_eq_getElem, List.getElem_map]
    rw [hg]
    refine ⟨rfl, rfl, rfl, fun h => ?_, fun h => ?_⟩
    · show (if (df.get ⟨i, hi⟩).provinceState = Val.na then Val.str "All"
        else (df.get ⟨i, hi⟩).provinceState) = Val.str "All"
      rw [if_pos h]
    · show (if (df.get ⟨i, hi⟩).provinceState = Val.na then Val.str "All"
        else (df.get ⟨i, hi⟩).provinceState) = (df.get ⟨i, hi⟩).provinceState
      rw [if_neg h]

/-- Witness for C6 at a concrete record with a missing sub-region. -/
theorem c6_subregion_defaulting_apply :
    ((clean_data mrowsNa).get ⟨0, by decide⟩).province_state = Val.str "All" :=
  ((c6_subregion_defaulting mrowsNa).2.2 0 (by decide) (by decide)).2.2.2.1 rfl

end Covid
